import Mathlib

/-!
# Verification of the deterministic risk-scoring pipeline

Shallow embedding of the deterministic risk-scoring pipeline of
`src/data_processor.py` (feature derivation, per-component normalization,
weighted aggregation, level assignment), its weight configuration from
`src/config.py`, and the annotation merge of `src/gemini_ai.py`, from the
Student-Performance-Analytics-AI repository.

Modelling conventions:
* Python/pandas floating-point numbers are modelled as exact rationals (`ℚ`);
* a pandas data frame is modelled as a list of records, one per row; adding a
  column to the frame is modelled as overwriting a field of every record;
* `df['c'].max()` / `df['c'].min()` are modelled by `listMax` / `listMin`
  over the projected column (the claims only concern non-empty batches, so
  the value of these folds on `[]` is irrelevant junk);
* the external text-generation call together with the JSON extraction of its
  response is modelled by an oracle producing one `AIOutcome` per row index.
-/

/-- One raw input record: the six columns of the input data frame that
`src/data_processor.py` reads (`absences`, `G1`, `G2`, `G3`, `failures`,
`studytime`). -/
structure StudentRecord where
  absences : ℚ
  G1 : ℚ
  G2 : ℚ
  G3 : ℚ
  failures : ℚ
  studytime : ℚ
  deriving DecidableEq, Repr

/-- One fully processed row of the data frame: the raw columns together with
every column the pipeline stages of `src/data_processor.py` assign
(`attendance_pct` … `risk_level`). -/
structure Row where
  absences : ℚ
  G1 : ℚ
  G2 : ℚ
  G3 : ℚ
  failures : ℚ
  studytime : ℚ
  attendance_pct : ℚ
  final_grade : ℚ
  trend_recent : ℚ
  missing_assignments : ℚ
  attendance_risk : ℚ
  grade_risk : ℚ
  trend_risk : ℚ
  missing_assignments_risk : ℚ
  risk_score : ℚ
  risk_level : String
  deriving DecidableEq, Inhabited, Repr

/-- Pandas `Series.max` over a non-empty column, as a fold (junk `0` on `[]`;
never used on an empty batch). -/
def listMax : List ℚ → ℚ
  | [] => 0
  | x :: xs => xs.foldl max x

/-- Pandas `Series.min` over a non-empty column, as a fold (junk `0` on `[]`;
never used on an empty batch). -/
def listMin : List ℚ → ℚ
  | [] => 0
  | x :: xs => xs.foldl min x

/-- A raw record viewed as a data-frame row before any derived column has
been assigned (placeholder values in the derived columns, as pandas rows
simply lack those columns until a stage assigns them). -/
def Row.ofStudent (s : StudentRecord) : Row :=
  { absences := s.absences, G1 := s.G1, G2 := s.G2, G3 := s.G3,
    failures := s.failures, studytime := s.studytime,
    attendance_pct := 0, final_grade := 0, trend_recent := 0,
    missing_assignments := 0, attendance_risk := 0, grade_risk := 0,
    trend_risk := 0, missing_assignments_risk := 0, risk_score := 0,
    risk_level := "" }

/-- Embedding of `compute_derived_features` (src/data_processor.py, lines 14-43):
`attendance_pct = (1 - absences/max_absences) * 100` when `max_absences > 0`,
else the constant `100.0`; `final_grade = G3`; `trend_recent = G3 - G2`;
`missing_assignments = 1` iff `failures > 0` or `studytime ≤ 1`. -/
def compute_derived_features (df : List StudentRecord) : List Row :=
  let max_absences := listMax (df.map (·.absences))
  df.map (fun s =>
    { Row.ofStudent s with
      attendance_pct :=
        if max_absences > 0 then (1 - s.absences / max_absences) * 100 else 100,
      final_grade := s.G3,
      trend_recent := s.G3 - s.G2,
      missing_assignments := if s.failures > 0 ∨ s.studytime ≤ 1 then 1 else 0 })

/-- Embedding of `normalize_risk_component` (src/data_processor.py, lines 46-59): the
neutral value `50.0` when `max_val == min_val`, otherwise the linear
rescaling to `[0,100]`, inverted when `inverse` is set, clamped by
`max(0, min(100, ·))`. -/
def normalize_risk_component (value min_val max_val : ℚ) (inverse : Bool) : ℚ :=
  if max_val = min_val then 50
  else
    let normalized := ((value - min_val) / (max_val - min_val)) * 100
    let normalized := if inverse then 100 - normalized else normalized
    max 0 (min 100 normalized)

/-- Embedding of `compute_risk_components` (src/data_processor.py, lines 62-94): the three
inverse-normalized components against batch-wide min/max, and the binary
`missing_assignments_risk = missing_assignments * 100`. -/
def compute_risk_components (df : List Row) : List Row :=
  let max_attendance := listMax (df.map (·.attendance_pct))
  let min_attendance := listMin (df.map (·.attendance_pct))
  let max_grade := listMax (df.map (·.final_grade))
  let min_grade := listMin (df.map (·.final_grade))
  let max_trend := listMax (df.map (·.trend_recent))
  let min_trend := listMin (df.map (·.trend_recent))
  df.map (fun r =>
    { r with
      attendance_risk :=
        normalize_risk_component r.attendance_pct min_attendance max_attendance true,
      grade_risk :=
        normalize_risk_component r.final_grade min_grade max_grade true,
      trend_risk :=
        normalize_risk_component r.trend_recent min_trend max_trend true,
      missing_assignments_risk := r.missing_assignments * 100 })

/-- The weight configuration record of `RISK_WEIGHTS` (src/config.py,
lines 59-64). -/
structure RiskWeights where
  attendance : ℚ
  grade : ℚ
  trend : ℚ
  missing_assignments : ℚ

/-- Embedding of `RISK_WEIGHTS` (src/config.py, lines 59-64). -/
def RISK_WEIGHTS : RiskWeights :=
  { attendance := 0.35, grade := 0.35, trend := 0.20, missing_assignments := 0.10 }

/-- Embedding of `compute_weighted_risk_score` (src/data_processor.py, lines 97-113). -/
def compute_weighted_risk_score (df : List Row) : List Row :=
  df.map (fun r =>
    { r with
      risk_score :=
        r.attendance_risk * RISK_WEIGHTS.attendance +
        r.grade_risk * RISK_WEIGHTS.grade +
        r.trend_risk * RISK_WEIGHTS.trend +
        r.missing_assignments_risk * RISK_WEIGHTS.missing_assignments })

/-- Embedding of `assign_risk_level` (src/data_processor.py, lines 116-128). -/
def assign_risk_level (risk_score : ℚ) : String :=
  if risk_score ≤ 39 then "Low"
  else if risk_score ≤ 69 then "Medium"
  else "High"

/-- Embedding of `process_student_data` (src/data_processor.py, lines 131-152): the full
deterministic pipeline. -/
def process_student_data (df : List StudentRecord) : List Row :=
  let df1 := compute_derived_features df
  let df2 := compute_risk_components df1
  let df3 := compute_weighted_risk_score df2
  df3.map (fun r => { r with risk_level := assign_risk_level r.risk_score })

/-- The single record of end-to-end scenario A (`test_case_1` in
src/test_cases.py, lines 40-46). -/
def scenarioA_record : StudentRecord :=
  { absences := 0, G1 := 15, G2 := 16, G3 := 17, failures := 0, studytime := 4 }

/-- The five-record batch of `create_test_student_data`
(src/test_cases.py, lines 15-25), used by end-to-end scenario B. -/
def create_test_student_data : List StudentRecord :=
  [ { absences := 0, G1 := 15, G2 := 16, G3 := 17, failures := 0, studytime := 4 },
    { absences := 5, G1 := 12, G2 := 13, G3 := 14, failures := 0, studytime := 3 },
    { absences := 10, G1 := 10, G2 := 11, G3 := 10, failures := 1, studytime := 2 },
    { absences := 15, G1 := 8, G2 := 9, G3 := 7, failures := 2, studytime := 1 },
    { absences := 20, G1 := 5, G2 := 6, G3 := 4, failures := 3, studytime := 1 } ]

/-- The row scenario A is expected to produce, with every derived column
written out (values computed from the source pipeline). -/
def scenarioA_row : Row :=
  { absences := 0, G1 := 15, G2 := 16, G3 := 17, failures := 0, studytime := 4,
    attendance_pct := 100, final_grade := 17, trend_recent := 1,
    missing_assignments := 0, attendance_risk := 50, grade_risk := 50,
    trend_risk := 50, missing_assignments_risk := 0, risk_score := 45,
    risk_level := "Medium" }

/-- One intervention object of the structured AI response
(`src/gemini_ai.py`, lines 57-63); the source JSON keys are `type` and
`action`. -/
structure Intervention where
  kind : String
  action : String
  deriving DecidableEq, Repr

/-- The well-formed payload of the external reasoning call
(`src/gemini_ai.py`, lines 48-64). -/
structure AIPayload where
  risk_score : ℚ
  risk_level : String
  key_risk_reasons : List String
  interventions : List Intervention
  deriving DecidableEq, Repr

/-- Modelled outcome of one external annotation call in
`analyze_student_with_ai` (src/gemini_ai.py, lines 69-124): the model call
plus JSON extraction either yields a parsed payload, raises
`json.JSONDecodeError` on an unparsable response, or raises some other
exception (network error, missing API key, ...). The external service and
`json.loads` themselves are outside the repository, so their combined result
is an oracle parameter of the embedding. -/
inductive AIOutcome where
  | success (payload : AIPayload)
  | parseFailure (raw : String)
  | callError (msg : String)
  deriving DecidableEq, Repr

/-- An outcome that does not produce a parsed payload. -/
def AIOutcome.isFailure : AIOutcome → Bool
  | .success _ => false
  | .parseFailure _ => true
  | .callError _ => true

/-- The dictionary returned by `analyze_student_with_ai`
(src/gemini_ai.py, lines 103-124), with one `Option` field per JSON key that
may or may not be present. -/
structure AnalysisResult where
  risk_score : Option ℚ
  risk_level : Option String
  key_risk_reasons : Option (List String)
  interventions : Option (List Intervention)
  error : Option String
  raw_response : Option String
  deriving DecidableEq, Repr

/-- Embedding of `analyze_student_with_ai` (src/gemini_ai.py, lines 69-124), as a function
of the call outcome: a success returns the parsed payload's keys and no
`error` key; a JSON parsing failure returns
`{"error": "JSON parsing failed", "raw_response": ...}`; any other exception
returns `{"error": str(e)}`. In every case the function returns a dictionary
instead of raising. -/
def analyze_student_with_ai : AIOutcome → AnalysisResult
  | .success p =>
    { risk_score := some p.risk_score, risk_level := some p.risk_level,
      key_risk_reasons := some p.key_risk_reasons,
      interventions := some p.interventions, error := none, raw_response := none }
  | .parseFailure raw =>
    { risk_score := none, risk_level := none, key_risk_reasons := none,
      interventions := none, error := some "JSON parsing failed",
      raw_response := some raw }
  | .callError msg =>
    { risk_score := none, risk_level := none, key_risk_reasons := none,
      interventions := none, error := some msg, raw_response := none }

/-- One row of the merged data frame built by `process_batch_with_ai`
(src/gemini_ai.py, lines 127-171): the original processed row (kept intact by
the `merge` on `student_id`) plus the four AI columns. The source stores
`key_risk_reasons` and `interventions` as their `json.dumps` strings; they
are modelled by the dumped values themselves. -/
structure MergedRow where
  row : Row
  student_id : ℕ
  ai_risk_score : ℚ
  ai_risk_level : String
  key_risk_reasons : List String
  interventions : List Intervention
  deriving DecidableEq, Repr

/-- Embedding of `process_batch_with_ai` (src/gemini_ai.py, lines 127-171): every row is
analyzed in turn (`iterrows` index modelled by `List.enum`); the AI columns
fall back to the row's deterministic `risk_score` / `risk_level` and to empty
lists when the corresponding key is absent from the analysis result
(`result.get('risk_score', row.get('risk_score', 0))` — processed rows always
carry `risk_score`, so the inner default is the deterministic score). -/
def process_batch_with_ai (df : List Row) (oracle : ℕ → AIOutcome) : List MergedRow :=
  df.enum.map (fun p =>
    let result := analyze_student_with_ai (oracle p.1)
    { row := p.2, student_id := p.1,
      ai_risk_score := result.risk_score.getD p.2.risk_score,
      ai_risk_level := result.risk_level.getD p.2.risk_level,
      key_risk_reasons := result.key_risk_reasons.getD [],
      interventions := result.interventions.getD [] })

/-! ## Facts about the batch-wide fold maximum and minimum -/

theorem foldlMax_init_le (xs : List ℚ) (a : ℚ) : a ≤ xs.foldl max a := by
  induction xs generalizing a with
  | nil => simp
  | cons y ys ih => exact le_trans (le_max_left a y) (ih (max a y))

theorem le_foldlMax_of_mem {y : ℚ} {xs : List ℚ} (a : ℚ) (hy : y ∈ xs) :
    y ≤ xs.foldl max a := by
  induction xs generalizing a with
  | nil => cases hy
  | cons z zs ih =>
    rcases List.mem_cons.1 hy with h | h
    · subst h
      exact le_trans (le_max_right a y) (foldlMax_init_le zs (max a y))
    · exact ih (max a z) h

theorem foldlMax_mem (xs : List ℚ) (a : ℚ) :
    xs.foldl max a = a ∨ xs.foldl max a ∈ xs := by
  induction xs generalizing a with
  | nil => exact Or.inl rfl
  | cons y ys ih =>
    rcases ih (max a y) with h | h
    · rcases max_choice a y with hm | hm
      · exact Or.inl (by rw [List.foldl_cons, h, hm])
      · exact Or.inr (by rw [List.foldl_cons, h, hm]; exact List.mem_cons_self y ys)
    · exact Or.inr (List.mem_cons_of_mem y h)

theorem foldlMin_le_init (xs : List ℚ) (a : ℚ) : xs.foldl min a ≤ a := by
  induction xs generalizing a with
  | nil => simp
  | cons y ys ih => exact le_trans (ih (min a y)) (min_le_left a y)

theorem foldlMin_le_of_mem {y : ℚ} {xs : List ℚ} (a : ℚ) (hy : y ∈ xs) :
    xs.foldl min a ≤ y := by
  induction xs generalizing a with
  | nil => cases hy
  | cons z zs ih =>
    rcases List.mem_cons.1 hy with h | h
    · subst h
      exact le_trans (foldlMin_le_init zs (min a y)) (min_le_right a y)
    · exact ih (min a z) h

theorem foldlMin_mem (xs : List ℚ) (a : ℚ) :
    xs.foldl min a = a ∨ xs.foldl min a ∈ xs := by
  induction xs generalizing a with
  | nil => exact Or.inl rfl
  | cons y ys ih =>
    rcases ih (min a y) with h | h
    · rcases min_choice a y with hm | hm
      · exact Or.inl (by rw [List.foldl_cons, h, hm])
      · exact Or.inr (by rw [List.foldl_cons, h, hm]; exact List.mem_cons_self y ys)
    · exact Or.inr (List.mem_cons_of_mem y h)

theorem le_listMax {y : ℚ} {l : List ℚ} (hy : y ∈ l) : y ≤ listMax l := by
  cases l with
  | nil => cases hy
  | cons x xs =>
    rcases List.mem_cons.1 hy with h | h
    · subst h; exact foldlMax_init_le xs y
    · exact le_foldlMax_of_mem x h

theorem listMax_mem {l : List ℚ} (hne : l ≠ []) : listMax l ∈ l := by
  cases l with
  | nil => exact absurd rfl hne
  | cons x xs =>
    rcases foldlMax_mem xs x with h | h
    · simp only [listMax]
      rw [h]
      exact List.mem_cons_self x xs
    · simp only [listMax]
      exact List.mem_cons_of_mem x h

theorem listMin_le {y : ℚ} {l : List ℚ} (hy : y ∈ l) : listMin l ≤ y := by
  cases l with
  | nil => cases hy
  | cons x xs =>
    rcases List.mem_cons.1 hy with h | h
    · subst h; exact foldlMin_le_init xs y
    · exact foldlMin_le_of_mem x h

theorem listMin_mem {l : List ℚ} (hne : l ≠ []) : listMin l ∈ l := by
  cases l with
  | nil => exact absurd rfl hne
  | cons x xs =>
    rcases foldlMin_mem xs x with h | h
    · simp only [listMin]
      rw [h]
      exact List.mem_cons_self x xs
    · simp only [listMin]
      exact List.mem_cons_of_mem x h

theorem listMax_of_const {l : List ℚ} {c : ℚ} (hne : l ≠ [])
    (h : ∀ x ∈ l, x = c) : listMax l = c :=
  h _ (listMax_mem hne)

theorem listMin_of_const {l : List ℚ} {c : ℚ} (hne : l ≠ [])
    (h : ∀ x ∈ l, x = c) : listMin l = c :=
  h _ (listMin_mem hne)

/-! ## Facts about the normalization primitive -/

theorem normalize_nonneg (value min_val max_val : ℚ) (inverse : Bool) :
    0 ≤ normalize_risk_component value min_val max_val inverse := by
  unfold normalize_risk_component
  split
  · norm_num
  · exact le_max_left 0 _

theorem normalize_le_100 (value min_val max_val : ℚ) (inverse : Bool) :
    normalize_risk_component value min_val max_val inverse ≤ 100 := by
  unfold normalize_risk_component
  split
  · norm_num
  · exact max_le (by norm_num) (min_le_left 100 _)

theorem normalize_eval_true {value min_val max_val : ℚ} (h1 : min_val < max_val)
    (h2 : min_val ≤ value) (h3 : value ≤ max_val) :
    normalize_risk_component value min_val max_val true =
      100 - (value - min_val) / (max_val - min_val) * 100 := by
  have hpos : 0 < max_val - min_val := sub_pos.2 h1
  have hr0 : 0 ≤ (value - min_val) / (max_val - min_val) :=
    div_nonneg (by linarith) (le_of_lt hpos)
  have hr1 : (value - min_val) / (max_val - min_val) ≤ 1 :=
    (div_le_one hpos).2 (by linarith)
  unfold normalize_risk_component
  rw [if_neg (ne_of_gt h1)]
  simp only [if_pos]
  have hlo : (0 : ℚ) ≤ 100 - (value - min_val) / (max_val - min_val) * 100 := by nlinarith
  have hhi : 100 - (value - min_val) / (max_val - min_val) * 100 ≤ 100 := by nlinarith
  rw [min_eq_right hhi, max_eq_right hlo]

/-! ## Shape of the rows produced by each pipeline stage -/

theorem mem_compute_derived {df : List StudentRecord} {q : Row}
    (h : q ∈ compute_derived_features df) :
    ∃ s ∈ df,
      q.attendance_pct = (if listMax (df.map (·.absences)) > 0
        then (1 - s.absences / listMax (df.map (·.absences))) * 100 else 100) ∧
      q.final_grade = s.G3 ∧
      q.trend_recent = s.G3 - s.G2 ∧
      q.missing_assignments = (if s.failures > 0 ∨ s.studytime ≤ 1 then 1 else 0) := by
  simp only [compute_derived_features, List.mem_map] at h
  obtain ⟨s, hs, rfl⟩ := h
  exact ⟨s, hs, rfl, rfl, rfl, rfl⟩

theorem mem_compute_risk_components {rows : List Row} {r : Row}
    (h : r ∈ compute_risk_components rows) :
    ∃ q ∈ rows,
      r.attendance_risk = normalize_risk_component q.attendance_pct
        (listMin (rows.map (·.attendance_pct))) (listMax (rows.map (·.attendance_pct))) true ∧
      r.grade_risk = normalize_risk_component q.final_grade
        (listMin (rows.map (·.final_grade))) (listMax (rows.map (·.final_grade))) true ∧
      r.trend_risk = normalize_risk_component q.trend_recent
        (listMin (rows.map (·.trend_recent))) (listMax (rows.map (·.trend_recent))) true ∧
      r.missing_assignments = q.missing_assignments ∧
      r.missing_assignments_risk = q.missing_assignments * 100 := by
  simp only [compute_risk_components, List.mem_map] at h
  obtain ⟨q, hq, rfl⟩ := h
  exact ⟨q, hq, rfl, rfl, rfl, rfl, rfl⟩

theorem mem_process_decomp {df : List StudentRecord} {r : Row}
    (h : r ∈ process_student_data df) :
    ∃ r2 ∈ compute_risk_components (compute_derived_features df),
      r.attendance_risk = r2.attendance_risk ∧
      r.grade_risk = r2.grade_risk ∧
      r.trend_risk = r2.trend_risk ∧
      r.missing_assignments = r2.missing_assignments ∧
      r.missing_assignments_risk = r2.missing_assignments_risk ∧
      r.risk_score = r2.attendance_risk * RISK_WEIGHTS.attendance +
        r2.grade_risk * RISK_WEIGHTS.grade + r2.trend_risk * RISK_WEIGHTS.trend +
        r2.missing_assignments_risk * RISK_WEIGHTS.missing_assignments ∧
      r.risk_level = assign_risk_level r.risk_score := by
  simp only [process_student_data, compute_weighted_risk_score, List.mem_map] at h
  obtain ⟨r3, ⟨r2, hr2, rfl⟩, rfl⟩ := h
  exact ⟨r2, hr2, rfl, rfl, rfl, rfl, rfl, rfl, rfl⟩

theorem process_student_data_length (df : List StudentRecord) :
    (process_student_data df).length = df.length := by
  simp [process_student_data, compute_weighted_risk_score, compute_risk_components,
    compute_derived_features]

/-- The full pipeline on the single-record scenario A batch, evaluated. -/
theorem scenarioA_process_eq :
    process_student_data [scenarioA_record] = [scenarioA_row] := by
  norm_num [process_student_data, compute_derived_features, compute_risk_components,
    compute_weighted_risk_score, normalize_risk_component, listMax, listMin,
    RISK_WEIGHTS, Row.ofStudent, assign_risk_level, scenarioA_record, scenarioA_row]

/-- C1, counterexample: on the single-record batch of scenario A the pipeline
does NOT make every risk component 50.0 with risk_score 50.0 — the
missing-assignments component is 0 and the score is 45. -/
theorem C1_counterexample :
    ¬ ((process_student_data [scenarioA_record]).map (·.missing_assignments_risk) = [50] ∧
       (process_student_data [scenarioA_record]).map (·.risk_score) = [50]) := by
  rw [scenarioA_process_eq]
  intro h
  obtain ⟨h1, _⟩ := h
  norm_num [scenarioA_row] at h1

/-- C1, amended: for the single-record batch
`{absences:0, G1:15, G2:16, G3:17, failures:0, studytime:4}` the pipeline
yields attendance_pct=100, final_grade=17, trend_recent=1,
missing_assignments=0, the three normalized components equal to 50.0, the
missing-assignments component equal to 0, risk_score=45.0 and
risk_level=Medium. -/
theorem C1_amended :
    (process_student_data [scenarioA_record]).map (·.attendance_pct) = [100] ∧
    (process_student_data [scenarioA_record]).map (·.final_grade) = [17] ∧
    (process_student_data [scenarioA_record]).map (·.trend_recent) = [1] ∧
    (process_student_data [scenarioA_record]).map (·.missing_assignments) = [0] ∧
    (process_student_data [scenarioA_record]).map (·.attendance_risk) = [50] ∧
    (process_student_data [scenarioA_record]).map (·.grade_risk) = [50] ∧
    (process_student_data [scenarioA_record]).map (·.trend_risk) = [50] ∧
    (process_student_data [scenarioA_record]).map (·.missing_assignments_risk) = [0] ∧
    (process_student_data [scenarioA_record]).map (·.risk_score) = [45] ∧
    (process_student_data [scenarioA_record]).map (·.risk_level) = ["Medium"] := by
  rw [scenarioA_process_eq]
  norm_num [scenarioA_row]

/-- C2, counterexample: the single-record batch of scenario A has the same
`absences` value (0) on all records, yet its attendance_risk is 50.0, not
100.0. -/
theorem C2_counterexample :
    ¬ (∀ r ∈ process_student_data [scenarioA_record], r.attendance_risk = 100) := by
  intro h
  have h1 := h scenarioA_row (by rw [scenarioA_process_eq]; exact List.mem_singleton.2 rfl)
  norm_num [scenarioA_row] at h1

/-- C2, amended: for every batch in which all records have the same value of
`absences`, the computed attendance_risk is 50.0 for every record (the
attendance percentage is then constant across the batch, so the
zero-variance neutral branch of the normalizer fires), and this case is not
an error. -/
theorem C2_amended (df : List StudentRecord) (c : ℚ)
    (hconst : ∀ s ∈ df, s.absences = c) :
    ∀ r ∈ process_student_data df, r.attendance_risk = 50 := by
  intro r hr
  obtain ⟨r2, hr2, ha, -, -, -, -, -, -⟩ := mem_process_decomp hr
  obtain ⟨q, hq, ha2, -, -, -, -⟩ := mem_compute_risk_components hr2
  have hne : df ≠ [] := by
    intro hnil
    subst hnil
    simp [compute_derived_features] at hq
  have hmaxa : listMax (df.map (·.absences)) = c := by
    refine listMax_of_const ?_ ?_
    · intro hnil
      exact hne (List.map_eq_nil_iff.1 hnil)
    · intro y hy
      rw [List.mem_map] at hy
      obtain ⟨s', hs', rfl⟩ := hy
      exact hconst s' hs'
  have hpct : ∀ x ∈ (compute_derived_features df).map (·.attendance_pct),
      x = if c > 0 then 0 else 100 := by
    intro x hx
    rw [List.mem_map] at hx
    obtain ⟨q', hq', rfl⟩ := hx
    obtain ⟨s, hs, hqa, -, -, -⟩ := mem_compute_derived hq'
    rw [hqa, hmaxa, hconst s hs]
    by_cases hc : c > 0
    · rw [if_pos hc, if_pos hc, div_self (ne_of_gt hc)]
      ring
    · rw [if_neg hc, if_neg hc]
  have hlen : ((compute_derived_features df).map (·.attendance_pct)).length = df.length := by
    simp [compute_derived_features]
  have hcol_ne : (compute_derived_features df).map (·.attendance_pct) ≠ [] := by
    intro hnil
    rw [hnil] at hlen
    exact hne (List.length_eq_zero.1 hlen.symm)
  rw [ha, ha2, listMax_of_const hcol_ne hpct, listMin_of_const hcol_ne hpct]
  simp [normalize_risk_component]

/-- C2, witness: the amended statement applied to the concrete batch
`[scenarioA_record]` (constant absences 0). -/
theorem C2_witness : scenarioA_row.attendance_risk = 50 :=
  C2_amended [scenarioA_record] 0
    (by intro s hs; rw [List.mem_singleton] at hs; rw [hs]; rfl)
    scenarioA_row (by rw [scenarioA_process_eq]; exact List.mem_singleton.2 rfl)

/-- C3: the risk-level classifier maps any score ≤ 39 to Low, any score with
40 ≤ score ≤ 69 to Medium, any score ≥ 70 to High, and at the boundaries
39.0 → Low, 40.0 → Medium, 69.0 → Medium, 70.0 → High; it is a pure function
of the score alone. -/
theorem C3_risk_level_thresholds :
    (∀ s : ℚ, s ≤ 39 → assign_risk_level s = "Low") ∧
    (∀ s : ℚ, 40 ≤ s → s ≤ 69 → assign_risk_level s = "Medium") ∧
    (∀ s : ℚ, 70 ≤ s → assign_risk_level s = "High") ∧
    assign_risk_level 39 = "Low" ∧ assign_risk_level 40 = "Medium" ∧
    assign_risk_level 69 = "Medium" ∧ assign_risk_level 70 = "High" := by
  refine ⟨?_, ?_, ?_, ?_, ?_, ?_, ?_⟩
  · intro s h
    rw [assign_risk_level, if_pos h]
  · intro s h1 h2
    rw [assign_risk_level, if_neg (by linarith), if_pos h2]
  · intro s h
    rw [assign_risk_level, if_neg (by linarith), if_neg (by linarith)]
  · norm_num [assign_risk_level]
  · norm_num [assign_risk_level]
  · norm_num [assign_risk_level]
  · norm_num [assign_risk_level]

/-- C3, witness: the three banded cases of the classifier applied at the
concrete boundary scores. -/
theorem C3_witness :
    assign_risk_level 39 = "Low" ∧ assign_risk_level 40 = "Medium" ∧
    assign_risk_level 70 = "High" :=
  ⟨C3_risk_level_thresholds.1 39 (by norm_num),
   C3_risk_level_thresholds.2.1 40 (by norm_num) (by norm_num),
   C3_risk_level_thresholds.2.2.1 70 (by norm_num)⟩

/-- Reordering the clamp: the source's `max 0 (min 100 x)` equals the spec's
clamp-to-`[0,100]` written as `min 100 (max 0 x)`. -/
theorem clamp_comm (x : ℚ) : max 0 (min 100 x) = min 100 (max 0 x) := by
  rcases le_total x 0 with h | h <;> rcases le_total x 100 with h2 | h2 <;>
    simp [max_def, min_def] <;> split_ifs <;> linarith

/-- C4: the normalization primitive returns exactly 50.0 whenever min = max
(no error); otherwise it returns the linear rescaling
`(value − min)/(max − min) × 100`, replaced by 100 minus it when `inverse` is
set, clamped to `[0,100]`. Consequently, whenever a normalized feature has
identical values on all records of a batch, that feature's risk component is
exactly 50.0 for every record. -/
theorem C4_normalize :
    (∀ (value min_val max_val : ℚ) (inverse : Bool), min_val = max_val →
      normalize_risk_component value min_val max_val inverse = 50) ∧
    (∀ value min_val max_val : ℚ, min_val ≠ max_val →
      normalize_risk_component value min_val max_val true =
        min 100 (max 0 (100 - (value - min_val) / (max_val - min_val) * 100)) ∧
      normalize_risk_component value min_val max_val false =
        min 100 (max 0 ((value - min_val) / (max_val - min_val) * 100))) ∧
    (∀ (rows : List Row) (c : ℚ), (∀ q ∈ rows, q.attendance_pct = c) →
      ∀ r ∈ compute_risk_components rows, r.attendance_risk = 50) ∧
    (∀ (rows : List Row) (c : ℚ), (∀ q ∈ rows, q.final_grade = c) →
      ∀ r ∈ compute_risk_components rows, r.grade_risk = 50) ∧
    (∀ (rows : List Row) (c : ℚ), (∀ q ∈ rows, q.trend_recent = c) →
      ∀ r ∈ compute_risk_components rows, r.trend_risk = 50) := by
  have hconstcol : ∀ (rows : List Row) (f : Row → ℚ) (c : ℚ), rows ≠ [] →
      (∀ q ∈ rows, f q = c) →
      listMax (rows.map f) = c ∧ listMin (rows.map f) = c := by
    intro rows f c hne hc
    have hmem : ∀ x ∈ rows.map f, x = c := by
      intro x hx
      rw [List.mem_map] at hx
      obtain ⟨q, hq, rfl⟩ := hx
      exact hc q hq
    have hmapne : rows.map f ≠ [] := by
      intro hnil
      exact hne (List.map_eq_nil_iff.1 hnil)
    exact ⟨listMax_of_const hmapne hmem, listMin_of_const hmapne hmem⟩
  refine ⟨?_, ?_, ?_, ?_, ?_⟩
  · intro v mn mx inv h
    rw [normalize_risk_component, if_pos h.symm]
  · intro v mn mx h
    constructor <;>
      · rw [normalize_risk_component, if_neg (Ne.symm h)]
        simp only [if_pos, Bool.false_eq_true, if_false]
        exact clamp_comm _
  · intro rows c hc r hr
    obtain ⟨q, hq, ha, -, -, -, -⟩ := mem_compute_risk_components hr
    have hne : rows ≠ [] := by
      intro hnil
      subst hnil
      cases hq
    obtain ⟨hmax, hmin⟩ := hconstcol rows (·.attendance_pct) c hne hc
    rw [ha, hmax, hmin, normalize_risk_component, if_pos rfl]
  · intro rows c hc r hr
    obtain ⟨q, hq, -, hg, -, -, -⟩ := mem_compute_risk_components hr
    have hne : rows ≠ [] := by
      intro hnil
      subst hnil
      cases hq
    obtain ⟨hmax, hmin⟩ := hconstcol rows (·.final_grade) c hne hc
    rw [hg, hmax, hmin, normalize_risk_component, if_pos rfl]
  · intro rows c hc r hr
    obtain ⟨q, hq, -, -, ht, -, -⟩ := mem_compute_risk_components hr
    have hne : rows ≠ [] := by
      intro hnil
      subst hnil
      cases hq
    obtain ⟨hmax, hmin⟩ := hconstcol rows (·.trend_recent) c hne hc
    rw [ht, hmax, hmin, normalize_risk_component, if_pos rfl]

/-- C4, witness: both branches of the primitive at concrete inputs, and the
zero-variance consequence on the concrete one-row batch `[scenarioA_row]`. -/
theorem C4_witness :
    normalize_risk_component 3 7 7 true = 50 ∧
    normalize_risk_component 5 0 10 true = 50 ∧
    normalize_risk_component 5 0 10 false = 50 ∧
    ((compute_risk_components [scenarioA_row]).get
      ⟨0, by simp [compute_risk_components]⟩).attendance_risk = 50 := by
  refine ⟨C4_normalize.1 3 7 7 true rfl, ?_, ?_, ?_⟩
  · rw [(C4_normalize.2.1 5 0 10 (by norm_num)).1]
    norm_num
  · rw [(C4_normalize.2.1 5 0 10 (by norm_num)).2]
    norm_num
  · exact C4_normalize.2.2.1 [scenarioA_row] 100
      (by intro q hq; rw [List.mem_singleton] at hq; rw [hq]; rfl)
      _ (List.get_mem _ _ _)

/-- C5: for every batch, every one of the four risk components of every
processed record lies in [0,100], and every record's risk_score lies in
[0,100]. -/
theorem C5_bounds (df : List StudentRecord) (r : Row)
    (hr : r ∈ process_student_data df) :
    (0 ≤ r.attendance_risk ∧ r.attendance_risk ≤ 100) ∧
    (0 ≤ r.grade_risk ∧ r.grade_risk ≤ 100) ∧
    (0 ≤ r.trend_risk ∧ r.trend_risk ≤ 100) ∧
    (0 ≤ r.missing_assignments_risk ∧ r.missing_assignments_risk ≤ 100) ∧
    (0 ≤ r.risk_score ∧ r.risk_score ≤ 100) := by
  obtain ⟨r2, hr2, ha, hg, ht, -, hmr, hs, -⟩ := mem_process_decomp hr
  obtain ⟨q, hq, ha2, hg2, ht2, hm2, hmr2⟩ := mem_compute_risk_components hr2
  obtain ⟨s, hsmem, -, -, -, hmq⟩ := mem_compute_derived hq
  have hq01 : q.missing_assignments = 0 ∨ q.missing_assignments = 1 := by
    rw [hmq]
    split
    · exact Or.inr rfl
    · exact Or.inl rfl
  have hA : 0 ≤ r2.attendance_risk ∧ r2.attendance_risk ≤ 100 := by
    rw [ha2]
    exact ⟨normalize_nonneg _ _ _ _, normalize_le_100 _ _ _ _⟩
  have hG : 0 ≤ r2.grade_risk ∧ r2.grade_risk ≤ 100 := by
    rw [hg2]
    exact ⟨normalize_nonneg _ _ _ _, normalize_le_100 _ _ _ _⟩
  have hT : 0 ≤ r2.trend_risk ∧ r2.trend_risk ≤ 100 := by
    rw [ht2]
    exact ⟨normalize_nonneg _ _ _ _, normalize_le_100 _ _ _ _⟩
  have hM : 0 ≤ r2.missing_assignments_risk ∧ r2.missing_assignments_risk ≤ 100 := by
    rw [hmr2]
    rcases hq01 with h | h <;> rw [h] <;> norm_num
  have hw : RISK_WEIGHTS.attendance = 35/100 ∧ RISK_WEIGHTS.grade = 35/100 ∧
      RISK_WEIGHTS.trend = 20/100 ∧ RISK_WEIGHTS.missing_assignments = 10/100 := by
    norm_num [RISK_WEIGHTS]
  have hS : 0 ≤ r.risk_score ∧ r.risk_score ≤ 100 := by
    rw [hs, hw.1, hw.2.1, hw.2.2.1, hw.2.2.2]
    constructor <;> nlinarith [hA.1, hA.2, hG.1, hG.2, hT.1, hT.2, hM.1, hM.2]
  rw [ha, hg, ht, hmr]
  exact ⟨hA, hG, hT, hM, hS⟩

/-- C5, witness: the bounds at the concrete processed row of scenario A. -/
theorem C5_witness :
    (0 ≤ scenarioA_row.attendance_risk ∧ scenarioA_row.attendance_risk ≤ 100) ∧
    (0 ≤ scenarioA_row.grade_risk ∧ scenarioA_row.grade_risk ≤ 100) ∧
    (0 ≤ scenarioA_row.trend_risk ∧ scenarioA_row.trend_risk ≤ 100) ∧
    (0 ≤ scenarioA_row.missing_assignments_risk ∧
      scenarioA_row.missing_assignments_risk ≤ 100) ∧
    (0 ≤ scenarioA_row.risk_score ∧ scenarioA_row.risk_score ≤ 100) :=
  C5_bounds [scenarioA_record] scenarioA_row
    (by rw [scenarioA_process_eq]; exact List.mem_singleton.2 rfl)

/-- C6: on the five-record test batch, the pipeline computes the column
values below; in particular the record with absences=20 (position 4) has
attendance_pct=0, all four components 100, risk_score=100 and level High,
and the record with absences=0 (position 0) has risk_score=0 and level
Low. -/
theorem C6_scenarioB :
    (process_student_data create_test_student_data).map (·.attendance_pct) =
      [100, 75, 50, 25, 0] ∧
    (process_student_data create_test_student_data).map (·.attendance_risk) =
      [0, 25, 50, 75, 100] ∧
    (process_student_data create_test_student_data).map (·.grade_risk) =
      [0, 300/13, 700/13, 1000/13, 100] ∧
    (process_student_data create_test_student_data).map (·.trend_risk) =
      [0, 0, 200/3, 100, 100] ∧
    (process_student_data create_test_student_data).map (·.missing_assignments_risk) =
      [0, 0, 100, 100, 100] ∧
    (process_student_data create_test_student_data).map (·.risk_score) =
      [0, 875/52, 4655/78, 4325/52, 100] ∧
    (process_student_data create_test_student_data).map (·.risk_level) =
      ["Low", "Low", "Medium", "High", "High"] := by
  norm_num [process_student_data, compute_derived_features, compute_risk_components,
    compute_weighted_risk_score, normalize_risk_component, listMax, listMin,
    RISK_WEIGHTS, Row.ofStudent, assign_risk_level, create_test_student_data]

/-- C10: for every batch and every processed record, `missing_assignments`
is 0 or 1, `missing_assignments_risk` equals `missing_assignments * 100`, so
the component is exactly 0 or exactly 100 and never the neutral value
50.0. -/
theorem C10_missing_binary (df : List StudentRecord) (r : Row)
    (hr : r ∈ process_student_data df) :
    (r.missing_assignments = 0 ∨ r.missing_assignments = 1) ∧
    r.missing_assignments_risk = r.missing_assignments * 100 ∧
    (r.missing_assignments_risk = 0 ∨ r.missing_assignments_risk = 100) ∧
    r.missing_assignments_risk ≠ 50 := by
  obtain ⟨r2, hr2, -, -, -, hm, hmr, -, -⟩ := mem_process_decomp hr
  obtain ⟨q, hq, -, -, -, hm2, hmr2⟩ := mem_compute_risk_components hr2
  obtain ⟨s, hsmem, -, -, -, hmq⟩ := mem_compute_derived hq
  have hq01 : q.missing_assignments = 0 ∨ q.missing_assignments = 1 := by
    rw [hmq]
    split
    · exact Or.inr rfl
    · exact Or.inl rfl
  have h01 : r.missing_assignments = 0 ∨ r.missing_assignments = 1 := by
    rw [hm, hm2]
    exact hq01
  have heq : r.missing_assignments_risk = r.missing_assignments * 100 := by
    rw [hmr, hmr2, hm, hm2]
  refine ⟨h01, heq, ?_, ?_⟩
  · rcases h01 with h | h <;> rw [heq, h] <;> norm_num
  · rcases h01 with h | h <;> rw [heq, h] <;> norm_num

/-- C10, witness: the binary component at the concrete processed row of
scenario A. -/
theorem C10_witness :
    (scenarioA_row.missing_assignments = 0 ∨ scenarioA_row.missing_assignments = 1) ∧
    scenarioA_row.missing_assignments_risk = scenarioA_row.missing_assignments * 100 ∧
    (scenarioA_row.missing_assignments_risk = 0 ∨
      scenarioA_row.missing_assignments_risk = 100) ∧
    scenarioA_row.missing_assignments_risk ≠ 50 :=
  C10_missing_binary [scenarioA_record] scenarioA_row
    (by rw [scenarioA_process_eq]; exact List.mem_singleton.2 rfl)

/-- The normalizer returns the neutral value whenever the bounds coincide. -/
theorem normalize_of_eq {min_val max_val : ℚ} (value : ℚ) (inverse : Bool)
    (h : max_val = min_val) :
    normalize_risk_component value min_val max_val inverse = 50 := by
  simp [normalize_risk_component, h]

/-- Core monotonicity fact behind C7: in a column of grades, replacing the
entry at position `k` by a strictly smaller value does not decrease the
inverse-normalized risk of that entry, even though the batch minimum and
maximum move with it. -/
theorem gradeMonoCore (gs : List ℚ) (k : ℕ) (hk : k < gs.length) (g' : ℚ)
    (hlt : g' < gs.get ⟨k, hk⟩) :
    normalize_risk_component (gs.get ⟨k, hk⟩) (listMin gs) (listMax gs) true ≤
    normalize_risk_component g' (listMin (gs.set k g')) (listMax (gs.set k g')) true := by
  set g := gs.get ⟨k, hk⟩ with hg
  set m := listMin gs with hmdef
  set M := listMax gs with hMdef
  set m' := listMin (gs.set k g') with hm'def
  set M' := listMax (gs.set k g') with hM'def
  have hne : gs ≠ [] := List.length_pos.1 (lt_of_le_of_lt (Nat.zero_le k) hk)
  have hlen' : (gs.set k g').length = gs.length := by simp
  have hne' : gs.set k g' ≠ [] := by
    refine List.length_pos.1 ?_
    rw [hlen']
    exact lt_of_le_of_lt (Nat.zero_le k) hk
  have hgmem : g ∈ gs := by
    rw [hg]
    exact gs.get_mem k hk
  have hmg : m ≤ g := listMin_le hgmem
  have hgM : g ≤ M := le_listMax hgmem
  have hg'mem : g' ∈ gs.set k g' := by
    have hkk : k < (gs.set k g').length := by
      rw [hlen']
      exact hk
    have hmem0 : (gs.set k g').get ⟨k, hkk⟩ ∈ gs.set k g' := List.get_mem _ _ _
    have hval : (gs.set k g').get ⟨k, hkk⟩ = g' := by simp
    rw [hval] at hmem0
    exact hmem0
  have hm'g' : m' ≤ g' := listMin_le hg'mem
  have hg'M' : g' ≤ M' := le_listMax hg'mem
  have hmem' : ∀ x ∈ gs.set k g', x ∈ gs ∨ x = g' :=
    fun x hx => List.mem_or_eq_of_mem_set hx
  have hmem : ∀ x ∈ gs, x = g ∨ x ∈ gs.set k g' := by
    intro x hx
    rw [List.mem_iff_getElem] at hx
    obtain ⟨j, hj, hxj⟩ := hx
    by_cases hjk : j = k
    · left
      subst hjk
      rw [hg, List.get_eq_getElem]
      exact hxj.symm
    · right
      have hj' : j < (gs.set k g').length := by
        rw [hlen']
        exact hj
      have hmem0 : (gs.set k g').get ⟨j, hj'⟩ ∈ gs.set k g' := List.get_mem _ _ _
      have hval : (gs.set k g').get ⟨j, hj'⟩ = x := by
        rw [List.get_eq_getElem, List.getElem_set, if_neg (fun h => hjk h.symm)]
        exact hxj
      rw [hval] at hmem0
      exact hmem0
  have hM'M : M' ≤ M := by
    rcases hmem' _ (listMax_mem hne') with h | h
    · exact le_listMax h
    · have h2 : M' = g' := h
      rw [h2]
      exact le_trans (le_of_lt hlt) hgM
  by_cases hdeg' : M' = m'
  · have hR : normalize_risk_component g' m' M' true = 50 := normalize_of_eq g' true hdeg'
    by_cases hdeg : M = m
    · have hL : normalize_risk_component g m M true = 50 := normalize_of_eq g true hdeg
      rw [hL, hR]
    · have hall' : ∀ x ∈ gs.set k g', x = m' := by
        intro x hx
        have h1 : m' ≤ x := listMin_le hx
        have h2 : x ≤ M' := le_listMax hx
        rw [hdeg'] at h2
        exact le_antisymm h2 h1
      have hg'm' : g' = m' := hall' g' hg'mem
      have hMg : M = g := by
        rcases hmem _ (listMax_mem hne) with h | h
        · exact h
        · exfalso
          have hMm' : M = m' := hall' M h
          have h1 : g ≤ m' := by
            rw [← hMm']
            exact hgM
          have h2 : m' < g := by
            rw [← hg'm']
            exact hlt
          linarith
      have hmM : m < M := lt_of_le_of_ne (le_trans hmg hgM) (fun h => hdeg h.symm)
      have hmg' : m < g := by
        rw [← hMg]
        exact hmM
      have hL : normalize_risk_component g m M true = 0 := by
        rw [normalize_eval_true hmM hmg hgM, hMg,
          div_self (sub_ne_zero.2 (ne_of_gt hmg'))]
        ring
      rw [hL, hR]
      norm_num
  · have hm'M' : m' < M' := lt_of_le_of_ne (le_trans hm'g' hg'M') (fun h => hdeg' h.symm)
    have hR := normalize_eval_true hm'M' hm'g' hg'M'
    by_cases hdeg : M = m
    · have hL : normalize_risk_component g m M true = 50 := normalize_of_eq g true hdeg
      have hall : ∀ x ∈ gs, x = g := by
        intro x hx
        have hgm : g = m := by
          apply le_antisymm _ hmg
          rw [← hdeg]
          exact hgM
        have hxm : x = m := by
          apply le_antisymm _ (listMin_le hx)
          rw [← hmdef, ← hdeg]
          exact le_listMax hx
        rw [hxm, hgm]
      have hm'eq : m' = g' := by
        apply le_antisymm hm'g'
        rcases hmem' _ (listMin_mem hne') with h | h
        · have hmg2 : m' = g := hall _ h
          rw [hmg2]
          exact le_of_lt hlt
        · exact le_of_eq h.symm
      have hRval : normalize_risk_component g' m' M' true = 100 := by
        rw [hR, hm'eq, sub_self, zero_div, zero_mul, sub_zero]
      rw [hL, hRval]
      norm_num
    · have hmM : m < M := lt_of_le_of_ne (le_trans hmg hgM) (fun h => hdeg h.symm)
      have hL := normalize_eval_true hmM hmg hgM
      rw [hL, hR]
      have hm'm : m' ≤ m := by
        rcases hmem _ (listMin_mem hne) with h | h
        · have hmg3 : m = g := h
          have hg'm2 : g' < m := by
            rw [hmg3]
            exact hlt
          exact le_of_lt (lt_of_le_of_lt hm'g' hg'm2)
        · exact listMin_le h
      have hkey : (g' - m') / (M' - m') ≤ (g - m) / (M - m) := by
        by_cases hg'm : m ≤ g'
        · have hm'm2 : m' = m := by
            apply le_antisymm hm'm
            rcases hmem' _ (listMin_mem hne') with h | h
            · exact listMin_le h
            · have h2 : m' = g' := h
              rw [h2]
              exact hg'm
          by_cases hMg : M = g
          · have h1 : (g' - m') / (M' - m') ≤ 1 := by
              rw [div_le_one (sub_pos.2 hm'M')]
              linarith
            have hmltg : m < g := by
              rw [← hMg]
              exact hmM
            have h2 : (g - m) / (M - m) = 1 := by
              rw [hMg, div_self (sub_ne_zero.2 (ne_of_gt hmltg))]
            rw [h2]
            exact h1
          · have hM'eq : M' = M := by
              apply le_antisymm hM'M
              rcases hmem _ (listMax_mem hne) with h | h
              · exact absurd h hMg
              · exact le_listMax h
            rw [hM'eq, hm'm2]
            exact (div_le_div_iff_of_pos_right (sub_pos.2 hmM)).2 (by linarith)
        · push_neg at hg'm
          have hm'eq : m' = g' := by
            apply le_antisymm hm'g'
            rcases hmem' _ (listMin_mem hne') with h | h
            · exact le_of_lt (lt_of_lt_of_le hg'm (listMin_le h))
            · exact le_of_eq h.symm
          rw [hm'eq, sub_self, zero_div]
          exact div_nonneg (by linarith) (le_of_lt (sub_pos.2 hmM))
      linarith

/-- The grade-risk column of the processed batch, expressed against the raw
`G3` column: position `k` holds the inverse normalization of `G3[k]` against
the batch-wide min/max of `G3`. -/
theorem process_grade_risk_get (df : List StudentRecord) (k : ℕ)
    (hk : k < df.length) (h2 : k < (process_student_data df).length) :
    ((process_student_data df).get ⟨k, h2⟩).grade_risk =
      normalize_risk_component (df.get ⟨k, hk⟩).G3
        (listMin (df.map (·.G3))) (listMax (df.map (·.G3))) true := by
  simp only [process_student_data, compute_weighted_risk_score,
    compute_risk_components, compute_derived_features, List.get_eq_getElem,
    List.getElem_map, List.map_map, Function.comp_def]

/-- C7: for every batch and every record position, holding everything else
fixed, strictly decreasing that record's final grade (`G3`, the value that
becomes `final_grade`) does not decrease that record's computed grade_risk,
even though the batch-wide min/max used for normalization move with it. -/
theorem C7_grade_monotone (df : List StudentRecord) (k : ℕ) (hk : k < df.length)
    (g' : ℚ) (hlt : g' < (df.get ⟨k, hk⟩).G3)
    (h1 : k < (process_student_data df).length)
    (h2 : k < (process_student_data
      (df.set k { df.get ⟨k, hk⟩ with G3 := g' })).length) :
    ((process_student_data df).get ⟨k, h1⟩).grade_risk ≤
    ((process_student_data
      (df.set k { df.get ⟨k, hk⟩ with G3 := g' })).get ⟨k, h2⟩).grade_risk := by
  have hk2 : k < (df.set k { df.get ⟨k, hk⟩ with G3 := g' }).length := by
    simpa using hk
  rw [process_grade_risk_get df k hk h1,
    process_grade_risk_get _ k hk2 h2]
  have hcol : (df.set k { df.get ⟨k, hk⟩ with G3 := g' }).map (·.G3) =
      (df.map (·.G3)).set k g' := by
    rw [List.map_set]
  have hval : (df.set k { df.get ⟨k, hk⟩ with G3 := g' }).get ⟨k, hk2⟩ =
      { df.get ⟨k, hk⟩ with G3 := g' } := by
    simp
  rw [hcol, hval]
  have hkg : k < (df.map (·.G3)).length := by
    simpa using hk
  have hgval : (df.map (·.G3)).get ⟨k, hkg⟩ = (df.get ⟨k, hk⟩).G3 := by
    simp
  have hcore := gradeMonoCore (df.map (·.G3)) k hkg g' (by rw [hgval]; exact hlt)
  rw [hgval] at hcore
  exact hcore

/-- C7, witness: decreasing the first test record's final grade from 17 to 5
inside the five-record test batch does not decrease its grade risk. -/
theorem C7_witness :
    ((process_student_data create_test_student_data).get
      ⟨0, by rw [process_student_data_length]; norm_num [create_test_student_data]⟩).grade_risk ≤
    ((process_student_data (create_test_student_data.set 0
      { create_test_student_data.get ⟨0, by norm_num [create_test_student_data]⟩ with
        G3 := 5 })).get
      ⟨0, by rw [process_student_data_length]; simp [create_test_student_data]⟩).grade_risk :=
  C7_grade_monotone create_test_student_data 0 (by norm_num [create_test_student_data]) 5
    (by norm_num [create_test_student_data]) _ _

/-- C8: the deterministic core is reproducible — two runs of the pipeline on
the same batch produce identical result rows (the embedding of the core is a
pure function of the batch: the source stages perform no I/O and read no
state besides the fixed weight configuration). -/
theorem C8_deterministic (b1 b2 : List StudentRecord) (h : b1 = b2) :
    process_student_data b1 = process_student_data b2 := by
  rw [h]

/-- C8, witness: both runs on the scenario A batch coincide. -/
theorem C8_witness :
    process_student_data [scenarioA_record] = process_student_data [scenarioA_record] :=
  C8_deterministic [scenarioA_record] [scenarioA_record] rfl

/-- C9: if the annotation outcome for a student is a failure (exception or
unparsable payload), the per-student analysis carries an explicit error
marker instead of raising, the merged row keeps the deterministic row
unchanged, `ai_risk_score`/`ai_risk_level` fall back to the deterministic
`risk_score`/`risk_level`, and the reasons and interventions lists fall back
to empty; the batch step is total, so no exception escapes it. -/
theorem C9_annotation_fallback (df : List Row) (oracle : ℕ → AIOutcome) (k : ℕ)
    (hk : k < df.length) (hfail : (oracle k).isFailure = true)
    (h2 : k < (process_batch_with_ai df oracle).length) :
    ((analyze_student_with_ai (oracle k)).error).isSome = true ∧
    ((process_batch_with_ai df oracle).get ⟨k, h2⟩).row = df.get ⟨k, hk⟩ ∧
    ((process_batch_with_ai df oracle).get ⟨k, h2⟩).ai_risk_score =
      (df.get ⟨k, hk⟩).risk_score ∧
    ((process_batch_with_ai df oracle).get ⟨k, h2⟩).ai_risk_level =
      (df.get ⟨k, hk⟩).risk_level ∧
    ((process_batch_with_ai df oracle).get ⟨k, h2⟩).key_risk_reasons = [] ∧
    ((process_batch_with_ai df oracle).get ⟨k, h2⟩).interventions = [] := by
  rcases hcase : oracle k with p | raw | msg
  · rw [hcase] at hfail
    simp [AIOutcome.isFailure] at hfail
  · simp [process_batch_with_ai, List.get_eq_getElem, List.getElem_map,
      List.getElem_enum, hcase, analyze_student_with_ai]
  · simp [process_batch_with_ai, List.get_eq_getElem, List.getElem_map,
      List.getElem_enum, hcase, analyze_student_with_ai]

/-- C9, witness: a one-row batch whose annotation call returns garbage. -/
theorem C9_witness :
    ((analyze_student_with_ai (AIOutcome.parseFailure "garbage")).error).isSome = true ∧
    ((process_batch_with_ai [scenarioA_row] (fun _ => AIOutcome.parseFailure "garbage")).get
      ⟨0, by simp [process_batch_with_ai]⟩).row = [scenarioA_row].get ⟨0, by norm_num⟩ ∧
    ((process_batch_with_ai [scenarioA_row] (fun _ => AIOutcome.parseFailure "garbage")).get
      ⟨0, by simp [process_batch_with_ai]⟩).ai_risk_score =
      ([scenarioA_row].get ⟨0, by norm_num⟩).risk_score ∧
    ((process_batch_with_ai [scenarioA_row] (fun _ => AIOutcome.parseFailure "garbage")).get
      ⟨0, by simp [process_batch_with_ai]⟩).ai_risk_level =
      ([scenarioA_row].get ⟨0, by norm_num⟩).risk_level ∧
    ((process_batch_with_ai [scenarioA_row] (fun _ => AIOutcome.parseFailure "garbage")).get
      ⟨0, by simp [process_batch_with_ai]⟩).key_risk_reasons = [] ∧
    ((process_batch_with_ai [scenarioA_row] (fun _ => AIOutcome.parseFailure "garbage")).get
      ⟨0, by simp [process_batch_with_ai]⟩).interventions = [] :=
  C9_annotation_fallback [scenarioA_row] (fun _ => AIOutcome.parseFailure "garbage") 0
    (by norm_num) rfl (by simp [process_batch_with_ai])
